import Mathlib

/-
Verification of the bulk create-or-update core of this repository.

The definitions below are a shallow embedding of
src/saleor/graphql/attribute/mutations/attribute_bulk_create_or_update.py
(class AttributeBulkCreateOrUpdate),
src/saleor/graphql/attribute/mutations/mixins.py (AttributeMixin.generate_slug), and
src/saleor/graphql/product/bulk_mutations/category_bulk_create_or_update.py
(class CategoryBulkCreateOrUpdate).

Django persistence is modelled as an explicit database value threaded through the
pipeline; the whole mutation runs inside one atomic transaction, so an uncaught
exception is modelled as an Except.error (the transaction rolls back and nothing
is returned), while a normal return commits the threaded database state.
-/

namespace Saleor

/-- Python truthiness of an optional string field: absent and empty are falsy. -/
def truthy : Option String → Bool
  | none => false
  | some s => !s.isEmpty

/-- Python `a or b` for optional string fields, with a string default. -/
def orElseStr (o : Option String) (d : String) : String :=
  match o with
  | some s => if s.isEmpty then d else s
  | none => d

/-- Modelled from the spec: transliteration of the base string to ASCII
(`text_unidecode.unidecode`, a third-party collaborator). On the ASCII inputs used
here it is the identity. -/
def unidecode (s : String) : String := s

/-- Collapses runs of hyphens to a single hyphen and drops trailing hyphens. -/
def squeezeDashes : List Char → List Char
  | [] => []
  | c :: rest =>
    match squeezeDashes rest with
    | [] => if c = '-' then [] else [c]
    | d :: tail => if c = '-' ∧ d = '-' then d :: tail else c :: d :: tail

/-- Modelled from the spec: normalization "to a URL-safe slug form"
(`django.utils.text.slugify`, a framework collaborator): lowercase, alphanumeric
characters kept, every other run of characters collapsed to a single hyphen,
with no leading or trailing hyphen. -/
def slugify (s : String) : String :=
  let mapped := s.toList.map (fun c => if c.isAlpha || c.isDigit then c.toLower else '-')
  String.mk ((squeezeDashes mapped).dropWhile (fun c => c = '-'))

/-- Fuel-bounded search for the first numeric suffix making the slug unique. -/
def findUniqueSuffix (slug : String) (slugs : List String) : Nat → Nat → String
  | 0, n => slug ++ "-" ++ toString n
  | fuel + 1, n =>
    let candidate := slug ++ "-" ++ toString n
    if candidate ∈ slugs then findUniqueSuffix slug slugs fuel (n + 1) else candidate

/-- Modelled from the spec: `prepare_unique_slug` from saleor.core.utils (not under
src/). "If the candidate slug already exists in existingSlugs or batchSlugs, append
a numeric suffix, incrementing until unique"; the first suffix tried is 2
(example: red, red-2). -/
def prepare_unique_slug (slug : String) (slugs : List String) : String :=
  if slug ∈ slugs then findUniqueSuffix slug slugs (slugs.length + 1) 2 else slug

/-- Permission classes referenced by this core. -/
inductive Perm where
  | manageProductTypes
  | managePageTypes
  | manageProducts
  deriving DecidableEq, Repr

/-- The caller context: the set of permissions the caller holds. -/
structure Ctx where
  perms : List Perm
  deriving DecidableEq

/-- BaseMutation.check_permissions: the caller must hold at least one of the listed
permissions. -/
def check_permissions (ctx : Ctx) (required : List Perm) : Bool :=
  required.any (fun p => ctx.perms.contains p)

/-- Error codes of AttributeBulkCreateErrorCode that this flow emits. -/
inductive ErrCode where
  | required
  | invalid
  deriving DecidableEq

/-- A validation error: optional dotted path, message, code
(AttributeBulkCreateError). -/
structure BulkError where
  path : Option String := none
  message : String
  code : ErrCode
  deriving DecidableEq

/-- A nested attribute-value input (AttributeValueCreateInput): the name plus the
additional_fields mapping (ref, value, code) and the index field used in error
paths. -/
structure ValueInput where
  name : Option String := none
  ref : Option String := none
  value : Option String := none
  code : Option String := none
  index : Nat := 0
  deriving DecidableEq

/-- One item of the input batch (AttributeCreateInput). `extraFields` holds the
names of the optional configuration fields the caller set to a truthy value
(used by the deprecated-field check and by the field-compatibility matrix). -/
structure AttrInput where
  slug : Option String := none
  name : String
  type_ : String
  inputType : Option String := none
  entityType : Option String := none
  extraFields : List String := []
  values : List ValueInput := []
  deriving DecidableEq

/-- A persisted attribute row. `pk` mirrors the Django primary key, which is
`some n` as soon as the row has been written. -/
structure Attribute where
  pk : Option Nat
  slug : String
  name : String
  type_ : String
  inputType : Option String
  deriving DecidableEq

/-- A persisted attribute-value row (its additional_fields inlined). -/
structure AttrValue where
  attrPk : Option Nat
  slug : String
  name : String
  ref : Option String
  value : String
  code : Option String
  deriving DecidableEq

/-- The persisted state visible to this core. -/
structure DB where
  attributes : List Attribute := []
  values : List AttrValue := []
  nextPk : Nat := 0
  deriving DecidableEq, Inhabited

/-- The two legal values of the error-policy selector. -/
inductive Policy where
  | rejectEverything
  | rejectFailedRows
  deriving DecidableEq

/-- How a run of the mutation can abort: the global permission guard raises
GraphQLError, and the cleaning loop can raise TypeError (assigning into a None
cleaned input). Either aborts the atomic transaction. -/
inductive RunError where
  | permissionDenied
  | typeError
  deriving DecidableEq

/-- The cleaned per-item dictionary as consumed by create_or_update_attributes:
the keys it reads are slug, name, type, input_type and values. -/
structure CleanedAttr where
  slug : String
  name : String
  type_ : String
  inputType : Option String
  values : List ValueInput
  deriving DecidableEq

/-- The raw input dictionary viewed through the keys create_or_update_attributes
reads; this is what the existing-slug passthrough in clean_attributes forwards
(src lines 185-187). -/
def raw_as_cleaned (a : AttrInput) (s : String) : CleanedAttr :=
  { slug := s, name := a.name, type_ := a.type_, inputType := a.inputType, values := a.values }

/-- The deprecated fields rejected by clean_attributes (DEPRECATED_ATTR_FIELDS,
named in the error message at src lines 190-194; the defining module
attribute_bulk_create is not under src/). -/
def DEPRECATED_ATTR_FIELDS : List String :=
  ["storefront_search_position", "filterable_in_storefront", "available_in_grid"]

/-- Modelled from the spec: the field-compatibility matrix
ATTRIBUTE_PROPERTIES_CONFIGURATION (the saleor.attribute package is not under
src/): a "configuration table kind-to-allowed-fields"; each optional field is
legal only for the listed input types. -/
def ATTRIBUTE_PROPERTIES_CONFIGURATION : List (String × List String) :=
  [ ("filterable_in_storefront",
      ["DROPDOWN", "MULTISELECT", "NUMERIC", "SWATCH", "BOOLEAN", "DATE", "DATE_TIME"]),
    ("filterable_in_dashboard",
      ["DROPDOWN", "MULTISELECT", "NUMERIC", "SWATCH", "BOOLEAN", "DATE", "DATE_TIME"]),
    ("available_in_grid",
      ["DROPDOWN", "MULTISELECT", "NUMERIC", "SWATCH", "BOOLEAN", "DATE", "DATE_TIME"]),
    ("storefront_search_position",
      ["DROPDOWN", "MULTISELECT", "NUMERIC", "SWATCH", "BOOLEAN", "DATE", "DATE_TIME"]) ]

/-- The first configuration field that is set although the input type does not
allow it (the loop at src lines 120-135 returns on the first offender). Python
`input_type not in allowed` is true when input_type is absent. -/
def configViolation (inputType : Option String) (extras : List String) : Option String :=
  (ATTRIBUTE_PROPERTIES_CONFIGURATION.find? (fun fa =>
      !(match inputType with
        | some t => fa.2.contains t
        | none => false) && extras.contains fa.1)).map (fun fa => fa.1)

/-- Modelled from the spec: clean_values from attribute_bulk_create (module not
under src/). Nested values are validated independently with dotted error paths
(values.i.name); a representative required-field rule is kept (a nested value
must supply a name). Its external-reference bookkeeping arguments are dropped:
nothing downstream of this call reads them. -/
def clean_values (values : List ValueInput) : List ValueInput × List BulkError :=
  (values,
    values.foldr
      (fun v acc =>
        if truthy v.name then acc
        else
          { path := some ("values." ++ toString v.index ++ ".name"),
            message := "Attribute value name is required.",
            code := ErrCode.required } :: acc)
      [])

/-- The REQUIRED error appended when the caller lacks the permission class of the
declared attribute type (src lines 93-103). -/
def permRequiredError : BulkError :=
  { message := "You have no permission to manage this type of attributes.",
    code := ErrCode.required }

/-- The REQUIRED error for a REFERENCE attribute without entity type
(src lines 107-117). -/
def entityTypeRequiredError : BulkError :=
  { path := some "entityType",
    message := "Entity type is required when REFERENCE input type is used.",
    code := ErrCode.required }

/-- The INVALID error for a configuration field set on an incompatible input type
(src lines 123-135). -/
def configInvalidError (field : String) : BulkError :=
  { path := some field,
    message := "Cannot set this field on this attribute input type.",
    code := ErrCode.invalid }

/-- The REQUIRED error for an item without a slug (src lines 174-183). -/
def slugRequiredError : BulkError :=
  { path := some "slug",
    message := "Slug is required for create or update operation.",
    code := ErrCode.required }

/-- The INVALID error for deprecated fields (src lines 189-202). -/
def deprecatedFieldsError : BulkError :=
  { message := "Deprecated fields are not allowed in bulk mutation.",
    code := ErrCode.invalid }

/-- AttributeBulkCreateOrUpdate._generate_slug (src lines 250-255): make the
provided slug unique against the shared slug set and add the result to the set. -/
def generate_slug_for_input (slug : String) (existingSlugs : List String) :
    String × List String :=
  let unique := prepare_unique_slug slug existingSlugs
  (unique, unique :: existingSlugs)

/-- AttributeBulkCreateOrUpdate.clean_attribute_input (src lines 70-151).
ModelMutation.clean_input is the framework identity on this model. Returns the
cleaned input (none on rejection), the errors appended to this index, and the
updated shared slug set. -/
def clean_attribute_input (ctx : Ctx) (a : AttrInput) (existingSlugs : List String) :
    Option CleanedAttr × List BulkError × List String :=
  let values := a.values
  let perms :=
    if a.type_ = "PRODUCT_TYPE" then [Perm.manageProductTypes] else [Perm.managePageTypes]
  if check_permissions ctx perms = false then
    (none, [permRequiredError], existingSlugs)
  else if a.inputType = some "REFERENCE" && !truthy a.entityType then
    (none, [entityTypeRequiredError], existingSlugs)
  else
    match configViolation a.inputType a.extraFields with
    | some field => (none, [configInvalidError field], existingSlugs)
    | none =>
      let (slug, slugs') := generate_slug_for_input (orElseStr a.slug "") existingSlugs
      let (cleanedValues, valueErrors) :=
        if values.isEmpty then ([], []) else clean_values values
      (some { slug := slug, name := a.name, type_ := a.type_,
              inputType := a.inputType, values := cleanedValues },
       valueErrors, slugs')

/-- One iteration of the loop in clean_attributes (src lines 172-221): missing
slug, existing-slug passthrough, deprecated-field rejection, then
clean_attribute_input. When clean_attribute_input returns None, line 215 assigns
into it (None subscript assignment) and the whole call raises TypeError; when it
returns a dict, line 215 overwrites its values key with the clean_value_input
mapping over the already popped (hence empty) values list. -/
def clean_step (ctx : Ctx) (existingSlugs : List String) (a : AttrInput) :
    Except RunError (Option CleanedAttr × List BulkError × List String) :=
  match a.slug with
  | none => .ok (none, [slugRequiredError], existingSlugs)
  | some s =>
    if s.isEmpty then .ok (none, [slugRequiredError], existingSlugs)
    else if s ∈ existingSlugs then .ok (some (raw_as_cleaned a s), [], existingSlugs)
    else if a.extraFields.any (fun k => DEPRECATED_ATTR_FIELDS.contains k) then
      .ok (none, [deprecatedFieldsError], existingSlugs)
    else
      match clean_attribute_input ctx a existingSlugs with
      | (none, _, _) => .error .typeError
      | (some c, errs, slugs') => .ok (some { c with values := [] }, errs, slugs')

/-- The loop of clean_attributes over the batch, threading the shared slug set and
collecting one (cleaned input, errors) pair per index. -/
def clean_go (ctx : Ctx) (existingSlugs : List String) :
    List AttrInput → Except RunError (List (Option CleanedAttr × List BulkError))
  | [] => .ok []
  | a :: rest =>
    match clean_step ctx existingSlugs a with
    | .error e => .error e
    | .ok (entry, errs, slugs') =>
      match clean_go ctx slugs' rest with
      | .error e => .error e
      | .ok tail => .ok ((entry, errs) :: tail)

/-- The existing-slug query of clean_attributes (src lines 162-166): the slugs of
persisted attributes that some batch item provided as its slug. -/
def existing_slugs_query (db : DB) (batch : List AttrInput) : List String :=
  (db.attributes.map (fun b => b.slug)).filter
    (fun s => batch.any (fun a => a.slug = some s))

/-- AttributeBulkCreateOrUpdate.clean_attributes (src lines 153-223). -/
def clean_attributes (ctx : Ctx) (db : DB) (batch : List AttrInput) :
    Except RunError (List (Option CleanedAttr × List BulkError)) :=
  clean_go ctx (existing_slugs_query db batch) batch

/-- models.Attribute.objects.update_or_create keyed by slug with name, type and
input_type defaults (src lines 275-282): returns the instance, the created flag
and the new state. -/
def update_or_create (db : DB) (c : CleanedAttr) : Attribute × Bool × DB :=
  match db.attributes.find? (fun b => b.slug = c.slug) with
  | some b =>
    let b' : Attribute :=
      { b with name := c.name, type_ := c.type_, inputType := c.inputType }
    (b', false,
      { db with attributes := db.attributes.map (fun x => if x.slug = c.slug then b' else x) })
  | none =>
    let a : Attribute :=
      { pk := some db.nextPk, slug := c.slug, name := c.name,
        type_ := c.type_, inputType := c.inputType }
    (a, true, { db with attributes := db.attributes ++ [a], nextPk := db.nextPk + 1 })

/-- AttributeBulkCreateOrUpdate.check_generation_slug, base-string computation
(src lines 323-329): ref and value joined, else name and code joined, else
`name or code or "-"` (ref and value are not consulted by the fallback). -/
def check_generation_slug_base (name ref value code : Option String) : String :=
  if truthy ref && truthy value then orElseStr ref "" ++ "-" ++ orElseStr value ""
  else if truthy name && truthy code then orElseStr name "" ++ "-" ++ orElseStr code ""
  else orElseStr name (orElseStr code "-")

/-- AttributeBulkCreateOrUpdate.check_generation_slug (src lines 305-338). Its
docstring promises a slug checked for uniqueness in the database, but the body
performs no lookup and no suffixing. -/
def check_generation_slug (name ref value code : Option String) : String :=
  let slug := slugify (unidecode (check_generation_slug_base name ref value code))
  if slug.isEmpty then "-" else slug

/-- The value_slugs dictionary of create_values (src lines 351-359): keyed by
generated slug, so a later value with the same slug silently replaces the
earlier one. Insertion keeps first-insertion order, Python-dict style. -/
def dictInsert (k : String) (v : ValueInput) :
    List (String × ValueInput) → List (String × ValueInput)
  | [] => [(k, v)]
  | (k', v') :: rest =>
    if k' = k then (k', v) :: rest else (k', v') :: dictInsert k v rest

/-- Builds the value_slugs dictionary for a list of value inputs. -/
def build_value_slugs (values : List ValueInput) : List (String × ValueInput) :=
  values.foldl
    (fun acc v =>
      dictInsert (check_generation_slug v.name v.ref v.value v.code) v acc) []

/-- AttributeBulkCreateOrUpdate.create_values (src lines 340-416): per slug,
update the existing value row of this attribute or build a new one; bulk_create
and bulk_update then persist. Django full_clean is a framework validator and is
modelled as always passing, so no errors are appended here. Returns the new
values table of the database. -/
def create_values (attrPk : Option Nat) (valuesData : List ValueInput)
    (dbValues : List AttrValue) : List AttrValue × List BulkError :=
  let valueSlugs := build_value_slugs valuesData
  let existingSlugs :=
    (dbValues.filter (fun w => w.attrPk = attrPk ∧ valueSlugs.any (fun kv => kv.1 = w.slug))).map
      (fun w => w.slug)
  let step := fun (vals : List AttrValue) (kv : String × ValueInput) =>
    let v := kv.2
    let valueName := orElseStr v.name ""
    let valueField := match v.value with | none => "" | some s => s
    if kv.1 ∈ existingSlugs then
      vals.map (fun w =>
        if w.attrPk = attrPk ∧ w.slug = kv.1 then
          { w with name := valueName, ref := v.ref, value := valueField, code := v.code }
        else w)
    else
      vals ++ [{ attrPk := attrPk, slug := kv.1, name := valueName,
                 ref := v.ref, value := valueField, code := v.code }]
  (valueSlugs.foldl step dbValues, [])

/-- One per-index result as accumulated by create_or_update_attributes: the
instance (or none) and the final error list of that index (the source aliases
the index_error_map entry, so value errors appended after the dict was built are
visible in it). -/
structure ItemResult where
  instance_ : Option Attribute
  errors : List BulkError
  deriving DecidableEq, Inhabited

/-- The loop of create_or_update_attributes (src lines 267-296): failed indices
yield a none instance with their errors; cleaned indices are written immediately
via update_or_create and their values via create_values. The created flag picks
a webhook event type at src lines 284-287 that no later code reads. -/
def create_or_update_go : DB → List (Option CleanedAttr × List BulkError) →
    List ItemResult × DB
  | db, [] => ([], db)
  | db, (none, errs) :: rest =>
    let (tail, db') := create_or_update_go db rest
    ({ instance_ := none, errors := errs } :: tail, db')
  | db, (some c, errs) :: rest =>
    let (a, _created, db1) := update_or_create db c
    let (newValues, valueErrs) :=
      if c.values.isEmpty then (db1.values, []) else create_values a.pk c.values db1.values
    let db2 := { db1 with values := newValues }
    let (tail, db') := create_or_update_go db2 rest
    ({ instance_ := some a, errors := errs ++ valueErrs } :: tail, db')

/-- AttributeBulkCreateOrUpdate.create_or_update_attributes (src lines 257-303):
the write loop followed by the REJECT_FAILED_ROWS nulling pass (src lines
298-302). -/
def create_or_update_attributes (policy : Policy) (db : DB)
    (entries : List (Option CleanedAttr × List BulkError)) : List ItemResult × DB :=
  let (lst, db') := create_or_update_go db entries
  (if policy = Policy.rejectFailedRows then
     lst.map (fun d => if d.errors.isEmpty then d else { d with instance_ := none })
   else lst, db')

/-- AttributeBulkCreateOrUpdate.save (src lines 418-432): bulk_update of the
non-null instances on name, type and input_type, in list order. -/
def save_attributes (db : DB) (lst : List ItemResult) : List Attribute × DB :=
  let toSave := lst.filterMap (fun d => d.instance_)
  (toSave,
    toSave.foldl
      (fun acc a =>
        { acc with
          attributes := acc.attributes.map (fun b =>
            if b.pk = a.pk then
              { b with name := a.name, type_ := a.type_, inputType := a.inputType }
            else b) })
      db)

/-- Lifecycle event kinds emitted by the notifier. -/
inductive EventKind where
  | created
  | updated
  deriving DecidableEq

/-- AttributeBulkCreateOrUpdate.post_save_actions (src lines 434-440): one event
per saved attribute, attribute_created when its pk is None and attribute_updated
otherwise. -/
def post_save_actions (attrs : List Attribute) : List (EventKind × Attribute) :=
  attrs.map (fun a => (if a.pk = none then EventKind.created else EventKind.updated, a))

/-- inputs_have_errors (src lines 463-465): some index has a non-empty error
list. Every index has an entry in the map because create_or_update_attributes
reads the defaultdict at every index. -/
def inputs_have_errors (data : List ItemResult) : Bool :=
  data.any (fun d => !d.errors.isEmpty)

/-- Modelled from the spec: get_results from attribute_bulk_create (module not
under src/). "If policy is REJECT_EVERYTHING and any index has a non-empty list,
every ItemResult.instance in the final output is set to absent ... but the full
per-index error lists are still returned"; without the flag the instances are
passed through. -/
def get_results (data : List ItemResult) (rejectEverything : Bool) : List ItemResult :=
  if rejectEverything then data.map (fun d => { d with instance_ := none }) else data

/-- What a completed call returns together with the committed state: count,
results, the persisted database (the atomic transaction commits on normal
return) and the emitted events. -/
structure MutationOutcome where
  count : Nat
  results : List ItemResult
  db : DB
  events : List (EventKind × Attribute)
  deriving DecidableEq, Inhabited

/-- AttributeBulkCreateOrUpdate.perform_mutation (src lines 442-481): global
permission guard, cleaning, the write loop, then either the REJECT_EVERYTHING
early return with count 0 and nulled results (the writes already made by the
loop stay committed, as no exception is raised) or save, results and events. -/
def perform_mutation (ctx : Ctx) (db : DB) (batch : List AttrInput) (policy : Policy) :
    Except RunError MutationOutcome :=
  if check_permissions ctx [Perm.manageProductTypes, Perm.managePageTypes] = false then
    .error .permissionDenied
  else
    match clean_attributes ctx db batch with
    | .error e => .error e
    | .ok entries =>
      let pair := create_or_update_attributes policy db entries
      if inputs_have_errors pair.1 = true ∧ policy = Policy.rejectEverything then
        .ok { count := 0, results := get_results pair.1 true, db := pair.2, events := [] }
      else
        let saved := save_attributes pair.2 pair.1
        .ok { count := saved.1.length, results := get_results pair.1 false, db := saved.2,
              events := post_save_actions saved.1 }

/-- AttributeMixin.generate_slug, base-string computation (mixins src lines
57-66): ref and value joined, else name and code joined, else name, else
`ref or value or code or "default-slug"`. -/
def generate_slug_base (ref value name code : Option String) : String :=
  if truthy ref && truthy value then orElseStr ref "" ++ "-" ++ orElseStr value ""
  else if truthy code && truthy name then orElseStr name "" ++ "-" ++ orElseStr code ""
  else if truthy name then orElseStr name ""
  else orElseStr ref (orElseStr value (orElseStr code "default-slug"))

/-- AttributeMixin.generate_slug (mixins src lines 53-76): slugified base string
with a default fallback, made unique against the supplied slug list. -/
def generate_slug (ref value name code : Option String) (slugList : List String) : String :=
  let slug := slugify (unidecode (generate_slug_base ref value name code))
  let slug := if slug.isEmpty then "default-slug" else slug
  prepare_unique_slug slug slugList

/-- The base-string priority exactly as the claim words it (refinement target,
written from the spec text, to be compared with the source functions): (a) both
ref and value present, join them; (b) both name and code present, join them;
(c) the first present field in the order name, ref, value, code; (d) a fixed
literal placeholder. -/
def specSlugBasePriority (name ref value code : Option String) (placeholder : String) : String :=
  if truthy ref && truthy value then orElseStr ref "" ++ "-" ++ orElseStr value ""
  else if truthy name && truthy code then orElseStr name "" ++ "-" ++ orElseStr code ""
  else if truthy name then orElseStr name ""
  else if truthy ref then orElseStr ref ""
  else if truthy value then orElseStr value ""
  else if truthy code then orElseStr code ""
  else placeholder

/-! The category bulk mutation
(src/saleor/graphql/product/bulk_mutations/category_bulk_create_or_update.py). -/

/-- One CategoryUpdateInput item. -/
structure CategoryUpdate where
  slug : String
  name : String
  description : String := ""
  parentSlug : Option String := none
  deriving DecidableEq

/-- A persisted category row. -/
structure Category where
  pk : Nat
  slug : String
  name : String
  description : String
  parentPk : Option Nat
  deriving DecidableEq

/-- The category table. -/
structure CatDB where
  cats : List Category := []
  nextPk : Nat := 0
  deriving DecidableEq, Inhabited

/-- models.Category.objects.update_or_create keyed by slug with name and
description defaults (category src lines 31-37): an existing row keeps its
parent; a new row starts with no parent. -/
def cat_update_or_create (db : CatDB) (u : CategoryUpdate) : Category × CatDB :=
  match db.cats.find? (fun c => c.slug = u.slug) with
  | some c =>
    let c' : Category := { c with name := u.name, description := u.description }
    (c', { db with cats := db.cats.map (fun x => if x.slug = u.slug then c' else x) })
  | none =>
    let c : Category :=
      { pk := db.nextPk, slug := u.slug, name := u.name,
        description := u.description, parentPk := none }
    (c, { db with cats := db.cats ++ [c], nextPk := db.nextPk + 1 })

/-- The error message appended when the parent slug matches no category
(category src line 44). -/
def parentMissingError (p : String) : String :=
  "Parent category with slug " ++ p ++ " does not exist."

/-- category.save(): write the in-memory instance back by primary key. -/
def cat_save (db : CatDB) (c : Category) : CatDB :=
  { db with cats := db.cats.map (fun x => if x.pk = c.pk then c else x) }

/-- One iteration of the loop in CategoryBulkCreateOrUpdate.mutate (category src
lines 29-48): upsert by slug, resolve the parent slug if one was given (a miss
appends an error and nulls the parent), save, and record the slug. The state is
(errors, processed slugs, table). -/
def category_step (st : List String × List String × CatDB) (u : CategoryUpdate) :
    List String × List String × CatDB :=
  let errors := st.1
  let slugs := st.2.1
  let db := st.2.2
  let cat := (cat_update_or_create db u).1
  let db1 := (cat_update_or_create db u).2
  match u.parentSlug with
  | some p =>
    if p.isEmpty then
      (errors, slugs ++ [u.slug], cat_save db1 cat)
    else
      match db1.cats.find? (fun c => c.slug = p) with
      | some parent =>
        (errors, slugs ++ [u.slug], cat_save db1 { cat with parentPk := some parent.pk })
      | none =>
        (errors ++ [parentMissingError p], slugs ++ [u.slug],
          cat_save db1 { cat with parentPk := none })
  | none => (errors, slugs ++ [u.slug], cat_save db1 cat)

/-- Well-formedness of the category table as Django guarantees it: primary keys
and slugs are distinct, and keys are below the allocator. -/
def CatWF (db : CatDB) : Prop :=
  (db.cats.map (fun c => c.pk)).Nodup
  ∧ (db.cats.map (fun c => c.slug)).Nodup
  ∧ ∀ c ∈ db.cats, c.pk < db.nextPk

/-- What CategoryBulkCreateOrUpdate.mutate returns together with the committed
table (the transaction commits on normal return; only the permission guard
raises). -/
structure CategoryOutcome where
  success : Bool
  errors : List String
  db : CatDB
  deriving DecidableEq, Inhabited

/-- CategoryBulkCreateOrUpdate.mutate (category src lines 18-53): permission
guard, the per-item loop, then success iff no error was collected. The writes of
the loop are returned as the committed state regardless of errors. -/
def category_mutate (ctx : Ctx) (db : CatDB) (updates : List CategoryUpdate) :
    Except RunError CategoryOutcome :=
  if ctx.perms.contains Perm.manageProducts = false then
    .error .permissionDenied
  else
    .ok { success := (updates.foldl category_step ([], [], db)).1.isEmpty,
          errors := (updates.foldl category_step ([], [], db)).1,
          db := (updates.foldl category_step ([], [], db)).2.2 }

/-! Concrete inputs used to exercise the model. -/

/-- A caller holding every permission this core consults. -/
def ctxFull : Ctx :=
  { perms := [Perm.manageProductTypes, Perm.managePageTypes, Perm.manageProducts] }

/-- A caller holding only the product-type permission. -/
def ctxProd : Ctx := { perms := [Perm.manageProductTypes] }

/-- An empty persisted state. -/
def dbEmpty : DB := {}

/-- A valid product-type item with slug color. -/
def itemA : AttrInput :=
  { slug := some "color", name := "Color", type_ := "PRODUCT_TYPE", inputType := some "DROPDOWN" }

/-- A valid product-type item with slug size. -/
def itemB : AttrInput :=
  { slug := some "size", name := "Size", type_ := "PRODUCT_TYPE", inputType := some "DROPDOWN" }

/-- A valid product-type item with slug mat. -/
def itemC : AttrInput :=
  { slug := some "mat", name := "Mat", type_ := "PRODUCT_TYPE", inputType := some "DROPDOWN" }

/-- A valid product-type item with slug fit. -/
def itemD : AttrInput :=
  { slug := some "fit", name := "Fit", type_ := "PRODUCT_TYPE", inputType := some "DROPDOWN" }

/-- An item without a slug: it fails the required-slug validation. -/
def itemNoSlug : AttrInput :=
  { name := "Weight", type_ := "PRODUCT_TYPE", inputType := some "DROPDOWN" }

/-- A page-type item: a caller without the page permission fails the per-item
capability check on it. -/
def itemPage : AttrInput :=
  { slug := some "page-attr", name := "P", type_ := "PAGE_TYPE", inputType := some "DROPDOWN" }

/-- Five items of which exactly the last fails validation (missing slug). -/
def batch5 : List AttrInput := [itemA, itemB, itemC, itemD, itemNoSlug]

/-- Five items of which exactly the last fails validation (capability check),
which makes the cleaning loop raise. -/
def batch5crash : List AttrInput := [itemA, itemB, itemC, itemD, itemPage]

/-- A state already holding the attribute with slug color. -/
def dbColor : DB :=
  { attributes :=
      [{ pk := some 0, slug := "color", name := "Color", type_ := "PRODUCT_TYPE",
         inputType := some "DROPDOWN" }],
    nextPk := 1 }

/-- An update item for slug color carrying two nested values both named Red. -/
def itemVals : AttrInput :=
  { slug := some "color", name := "Color2", type_ := "PRODUCT_TYPE",
    inputType := some "DROPDOWN",
    values := [{ name := some "Red", index := 0 }, { name := some "Red", index := 1 }] }

/-- A state already holding a page-type attribute with slug legacy. -/
def dbLegacy : DB :=
  { attributes :=
      [{ pk := some 0, slug := "legacy", name := "Legacy", type_ := "PAGE_TYPE",
         inputType := some "DROPDOWN" }],
    nextPk := 1 }

/-- An update item whose slug matches the persisted attribute legacy while
carrying a deprecated field, a page type the caller has no permission for, and
nested values: every per-item check would reject it if any of them ran. -/
def itemLegacy : AttrInput :=
  { slug := some "legacy", name := "L2", type_ := "PAGE_TYPE", inputType := some "DROPDOWN",
    extraFields := ["available_in_grid"], values := [{ name := some "V", index := 0 }] }

/-- The cleaning result of the passthrough scenario. -/
def c9entries : List (Option CleanedAttr × List BulkError) :=
  (clean_attributes ctxProd dbLegacy [itemA, itemLegacy]).toOption.getD []

/-- The completed run of batch5 under REJECT_EVERYTHING. -/
def c2res : MutationOutcome :=
  (perform_mutation ctxFull dbEmpty batch5 Policy.rejectEverything).toOption.getD default

/-- The completed run of batch5 under REJECT_FAILED_ROWS. -/
def c3res : MutationOutcome :=
  (perform_mutation ctxFull dbEmpty batch5 Policy.rejectFailedRows).toOption.getD default

/-- The completed run of a two-item valid batch under REJECT_EVERYTHING. -/
def c4res : MutationOutcome :=
  (perform_mutation ctxFull dbEmpty [itemA, itemB] Policy.rejectEverything).toOption.getD default

/-- A caller holding the product management permission of the category mutation. -/
def catCtx : Ctx := { perms := [Perm.manageProducts] }

/-- An empty category table. -/
def catDb0 : CatDB := {}

/-- A category update whose parent slug matches no category. -/
def upd1 : CategoryUpdate := { slug := "a", name := "A", parentSlug := some "ghost" }

/-! Theorems. Structural lemmas about the pipeline come first. -/

/-- The cleaning loop yields one entry per input item. -/
theorem clean_go_length (ctx : Ctx) :
    ∀ (batch : List AttrInput) (slugs : List String)
      (entries : List (Option CleanedAttr × List BulkError)),
    clean_go ctx slugs batch = .ok entries → entries.length = batch.length := by
  intro batch
  induction batch with
  | nil =>
    intro slugs entries h
    simp only [clean_go] at h
    cases h
    rfl
  | cons a rest ih =>
    intro slugs entries h
    simp only [clean_go] at h
    split at h
    · cases h
    next entry errs slugs' hs =>
      split at h
      · cases h
      next tail hr =>
        cases h
        simp [ih slugs' tail hr]

/-- A cleaning step that rejects an item always appends an error for it. -/
theorem clean_step_none_has_error (ctx : Ctx) (slugs : List String) (a : AttrInput)
    (errs : List BulkError) (slugs' : List String)
    (h : clean_step ctx slugs a = .ok (none, errs, slugs')) : errs ≠ [] := by
  unfold clean_step at h
  cases ha : a.slug with
  | none => rw [ha] at h; cases h; simp
  | some s =>
    rw [ha] at h
    by_cases he : s.isEmpty
    · simp only [he, if_true] at h; cases h; simp
    · simp only [he, if_false] at h
      by_cases hm : s ∈ slugs
      · simp only [hm, if_true] at h; cases h
      · simp only [hm, if_false] at h
        by_cases hd : a.extraFields.any (fun k => DEPRECATED_ATTR_FIELDS.contains k)
        · simp only [hd, if_true] at h; cases h; simp
        · simp only [hd, if_false] at h
          cases hc : clean_attribute_input ctx a slugs with
          | mk o rest =>
            cases o with
            | none => rw [hc] at h; cases h
            | some c => rw [hc] at h; cases h

/-- Every rejected entry of a successful cleaning run carries an error. -/
theorem clean_go_none_has_error (ctx : Ctx) :
    ∀ (batch : List AttrInput) (slugs : List String)
      (entries : List (Option CleanedAttr × List BulkError)),
    clean_go ctx slugs batch = .ok entries →
    ∀ e ∈ entries, e.1 = none → e.2 ≠ [] := by
  intro batch
  induction batch with
  | nil =>
    intro slugs entries h
    simp only [clean_go] at h
    cases h
    intro e he
    cases he
  | cons a rest ih =>
    intro slugs entries h
    simp only [clean_go] at h
    split at h
    · cases h
    next entry errs slugs' hs =>
      split at h
      · cases h
      next tail hr =>
        cases h
        intro e he hnone
        cases he with
        | head =>
          have hentry : entry = none := hnone
          rw [hentry] at hs
          exact clean_step_none_has_error ctx slugs a errs slugs' hs
        | tail _ hmem => exact ih slugs' tail hr e hmem hnone

/-- The write loop yields one result per entry. -/
theorem create_or_update_go_length :
    ∀ (entries : List (Option CleanedAttr × List BulkError)) (db : DB),
    (create_or_update_go db entries).1.length = entries.length := by
  intro entries
  induction entries with
  | nil => intro db; rfl
  | cons e rest ih =>
    intro db
    obtain ⟨oc, errs⟩ := e
    cases oc with
    | none => simp [create_or_update_go, ih]
    | some c => simp [create_or_update_go, ih]

/-- create_or_update_attributes yields one result per entry. -/
theorem create_or_update_attributes_length (policy : Policy) (db : DB)
    (entries : List (Option CleanedAttr × List BulkError)) :
    (create_or_update_attributes policy db entries).1.length = entries.length := by
  unfold create_or_update_attributes
  by_cases hp : policy = Policy.rejectFailedRows
  · simp [hp, create_or_update_go_length]
  · simp [hp, create_or_update_go_length]

/-- get_results preserves the number of results. -/
theorem get_results_length (data : List ItemResult) (b : Bool) :
    (get_results data b).length = data.length := by
  unfold get_results
  cases b <;> simp

/-- get_results preserves every per-index error list. -/
theorem get_results_errors (data : List ItemResult) (b : Bool) :
    (get_results data b).map (fun d => d.errors) = data.map (fun d => d.errors) := by
  unfold get_results
  cases b <;> simp

/-- When no index has errors, every error list is empty. -/
theorem inputs_have_errors_false (data : List ItemResult)
    (h : inputs_have_errors data = false) : ∀ d ∈ data, d.errors = [] := by
  intro d hd
  unfold inputs_have_errors at h
  rw [List.any_eq_false] at h
  have := h d hd
  simpa using this

/-- A list of results with every instance present keeps its length under
filterMap. -/
theorem filterMap_instance_all_some :
    ∀ (l : List ItemResult),
    (∀ i (hi : i < l.length), (l.get ⟨i, hi⟩).instance_.isSome = true) →
    (l.filterMap (fun d => d.instance_)).length = l.length := by
  intro l
  induction l with
  | nil => intro _; rfl
  | cons d rest ih =>
    intro h
    have h0 : d.instance_.isSome = true := h 0 (by simp)
    obtain ⟨a, ha⟩ := Option.isSome_iff_exists.mp h0
    rw [List.filterMap_cons, ha]
    have : (rest.filterMap (fun d => d.instance_)).length = rest.length := by
      apply ih
      intro i hi
      exact h (i + 1) (by simpa using Nat.succ_lt_succ hi)
    simp [this]

/-- A list of results with exactly one absent instance loses exactly one entry
under filterMap. -/
theorem filterMap_instance_one_none :
    ∀ (l : List ItemResult) (j : Nat) (hj : j < l.length),
    (l.get ⟨j, hj⟩).instance_ = none →
    (∀ i (hi : i < l.length), i ≠ j → (l.get ⟨i, hi⟩).instance_.isSome = true) →
    (l.filterMap (fun d => d.instance_)).length + 1 = l.length := by
  intro l
  induction l with
  | nil => intro j hj; cases hj
  | cons d rest ih =>
    intro j hj hnone hsome
    cases j with
    | zero =>
      have h0 : d.instance_ = none := hnone
      rw [List.filterMap_cons, h0]
      have : (rest.filterMap (fun d => d.instance_)).length = rest.length := by
        apply filterMap_instance_all_some
        intro i hi
        exact hsome (i + 1) (by simpa using Nat.succ_lt_succ hi) (by simp)
      simp [this]
    | succ k =>
      have h0 : d.instance_.isSome = true := hsome 0 (by simp) (by simp)
      obtain ⟨a, ha⟩ := Option.isSome_iff_exists.mp h0
      rw [List.filterMap_cons, ha]
      have hk : k < rest.length := by simpa using Nat.lt_of_succ_lt_succ hj
      have : (rest.filterMap (fun d => d.instance_)).length + 1 = rest.length := by
        apply ih k hk
        · exact hnone
        · intro i hi hne
          exact hsome (i + 1) (by simpa using Nat.succ_lt_succ hi) (by simpa using hne)
      simp only [List.length_cons]
      omega

/-- A successful run of perform_mutation decomposes into a successful cleaning
pass followed by either the REJECT_EVERYTHING early return or the save path. -/
theorem perform_mutation_ok_cases (ctx : Ctx) (db : DB) (batch : List AttrInput)
    (policy : Policy) (r : MutationOutcome)
    (h : perform_mutation ctx db batch policy = .ok r) :
    ∃ entries, clean_attributes ctx db batch = .ok entries
      ∧ entries.length = batch.length
      ∧ (∀ e ∈ entries, e.1 = none → e.2 ≠ [])
      ∧ ((inputs_have_errors (create_or_update_attributes policy db entries).1 = true
            ∧ policy = Policy.rejectEverything
            ∧ r = { count := 0,
                    results := get_results (create_or_update_attributes policy db entries).1 true,
                    db := (create_or_update_attributes policy db entries).2, events := [] })
        ∨ (¬(inputs_have_errors (create_or_update_attributes policy db entries).1 = true
              ∧ policy = Policy.rejectEverything)
            ∧ r = { count := (save_attributes (create_or_update_attributes policy db entries).2
                      (create_or_update_attributes policy db entries).1).1.length,
                    results := get_results (create_or_update_attributes policy db entries).1 false,
                    db := (save_attributes (create_or_update_attributes policy db entries).2
                      (create_or_update_attributes policy db entries).1).2,
                    events := post_save_actions
                      (save_attributes (create_or_update_attributes policy db entries).2
                        (create_or_update_attributes policy db entries).1).1 })) := by
  unfold perform_mutation at h
  split at h
  · cases h
  · split at h
    · cases h
    next entries hclean =>
      dsimp only at h
      refine ⟨entries, hclean, clean_go_length ctx batch _ entries hclean,
        clean_go_none_has_error ctx batch _ entries hclean, ?_⟩
      split at h
      next hcond =>
        cases h
        exact Or.inl ⟨hcond.1, hcond.2, rfl⟩
      next hcond =>
        cases h
        exact Or.inr ⟨hcond, rfl⟩

/-- The write loop never yields an absent instance without errors. -/
theorem create_or_update_go_none_err :
    ∀ (entries : List (Option CleanedAttr × List BulkError)) (db : DB),
    (∀ e ∈ entries, e.1 = none → e.2 ≠ []) →
    ∀ d ∈ (create_or_update_go db entries).1, d.instance_ = none → d.errors ≠ [] := by
  intro entries
  induction entries with
  | nil => intro db _ d hd; cases hd
  | cons e rest ih =>
    intro db hent d hd hnone
    obtain ⟨oc, errs⟩ := e
    cases oc with
    | none =>
      simp only [create_or_update_go] at hd
      cases hd with
      | head => exact hent (none, errs) (by simp) rfl
      | tail _ hmem =>
        exact ih _ (fun x hx => hent x (List.mem_cons_of_mem _ hx)) d hmem hnone
    | some c =>
      simp only [create_or_update_go] at hd
      cases hd with
      | head => cases hnone
      | tail _ hmem =>
        exact ih _ (fun x hx => hent x (List.mem_cons_of_mem _ hx)) d hmem hnone

/-- Under REJECT_FAILED_ROWS the final instances are absent exactly at the
indices with errors. -/
theorem create_or_update_rfr_none_iff (db : DB)
    (entries : List (Option CleanedAttr × List BulkError))
    (hent : ∀ e ∈ entries, e.1 = none → e.2 ≠ []) :
    ∀ d ∈ (create_or_update_attributes Policy.rejectFailedRows db entries).1,
      (d.instance_ = none ↔ d.errors ≠ []) := by
  intro d hd
  unfold create_or_update_attributes at hd
  simp only [eq_self_iff_true, if_true, List.mem_map] at hd
  obtain ⟨d0, hd0, hmap⟩ := hd
  by_cases he : d0.errors.isEmpty
  · rw [if_pos he] at hmap
    subst hmap
    have hee : d0.errors = [] := by simpa [List.isEmpty_iff] using he
    constructor
    · intro hnone
      exact absurd hee (create_or_update_go_none_err entries db hent d0 hd0 hnone)
    · intro hne; exact absurd hee hne
  · rw [if_neg he] at hmap
    subst hmap
    constructor
    · intro _; simpa [List.isEmpty_iff] using he
    · intro _; rfl

/-- The instance written by update_or_create carries the cleaned slug. -/
theorem update_or_create_slug (db : DB) (c : CleanedAttr) :
    (update_or_create db c).1.slug = c.slug := by
  unfold update_or_create
  cases hf : db.attributes.find? (fun b => b.slug = c.slug) with
  | none => rfl
  | some b =>
    have := List.find?_some hf
    simp only [decide_eq_true_eq] at this
    simpa using this

/-- The slug written by update_or_create is present afterwards. -/
theorem update_or_create_mem (db : DB) (c : CleanedAttr) :
    ∃ b ∈ (update_or_create db c).2.2.attributes, b.slug = c.slug := by
  unfold update_or_create
  cases hf : db.attributes.find? (fun b => b.slug = c.slug) with
  | none =>
    refine ⟨{ pk := some db.nextPk, slug := c.slug, name := c.name,
              type_ := c.type_, inputType := c.inputType }, ?_, rfl⟩
    simp
  | some b =>
    have hb := List.find?_some hf
    simp only [decide_eq_true_eq] at hb
    have hmem := List.mem_of_find?_eq_some hf
    refine ⟨{ b with name := c.name, type_ := c.type_, inputType := c.inputType }, ?_, hb⟩
    simp only [List.mem_map]
    exact ⟨b, hmem, by rw [if_pos hb]⟩

/-- update_or_create preserves the presence of any slug. -/
theorem update_or_create_preserves (db : DB) (c : CleanedAttr) (s : String)
    (h : ∃ b ∈ db.attributes, b.slug = s) :
    ∃ b ∈ (update_or_create db c).2.2.attributes, b.slug = s := by
  obtain ⟨b, hmem, hslug⟩ := h
  unfold update_or_create
  cases hf : db.attributes.find? (fun x => x.slug = c.slug) with
  | none => exact ⟨b, by simp [hmem], hslug⟩
  | some b0 =>
    have hb0 := List.find?_some hf
    simp only [decide_eq_true_eq] at hb0
    by_cases hcs : b.slug = c.slug
    · refine ⟨{ b0 with name := c.name, type_ := c.type_, inputType := c.inputType }, ?_, ?_⟩
      · simp only [List.mem_map]
        exact ⟨b, hmem, by rw [if_pos hcs]⟩
      · rw [← hslug, hcs, hb0]
    · refine ⟨b, ?_, hslug⟩
      simp only [List.mem_map]
      exact ⟨b, hmem, by rw [if_neg hcs]⟩

/-- The write loop preserves the presence of any slug. -/
theorem create_or_update_go_preserves :
    ∀ (entries : List (Option CleanedAttr × List BulkError)) (db : DB) (s : String),
    (∃ b ∈ db.attributes, b.slug = s) →
    ∃ b ∈ (create_or_update_go db entries).2.attributes, b.slug = s := by
  intro entries
  induction entries with
  | nil => intro db s h; exact h
  | cons e rest ih =>
    intro db s h
    obtain ⟨oc, errs⟩ := e
    cases oc with
    | none => simpa [create_or_update_go] using ih db s h
    | some c =>
      have h1 := update_or_create_preserves db c s h
      simp only [create_or_update_go]
      exact ih _ s h1

/-- Every instance returned by the write loop has its slug present in the state
the loop returns. -/
theorem create_or_update_go_instance_slug :
    ∀ (entries : List (Option CleanedAttr × List BulkError)) (db : DB)
      (d : ItemResult) (a : Attribute),
    d ∈ (create_or_update_go db entries).1 → d.instance_ = some a →
    ∃ b ∈ (create_or_update_go db entries).2.attributes, b.slug = a.slug := by
  intro entries
  induction entries with
  | nil => intro db d a hd; cases hd
  | cons e rest ih =>
    intro db d a hd hinst
    obtain ⟨oc, errs⟩ := e
    cases oc with
    | none =>
      simp only [create_or_update_go] at hd ⊢
      cases hd with
      | head => cases hinst
      | tail _ hmem => exact ih db d a hmem hinst
    | some c =>
      simp only [create_or_update_go] at hd ⊢
      cases hd with
      | head =>
        have hinsta : (update_or_create db c).1 = a := by
          injection hinst
        have hpres := update_or_create_mem db c
        rw [← update_or_create_slug db c, hinsta] at hpres
        exact create_or_update_go_preserves rest _ a.slug hpres
      | tail _ hmem => exact ih _ d a hmem hinst

/-- Bulk update in save_attributes preserves the presence of any slug. -/
theorem save_attributes_preserves (lst : List ItemResult) (s : String) :
    ∀ (db : DB), (∃ b ∈ db.attributes, b.slug = s) →
    ∃ b ∈ (save_attributes db lst).2.attributes, b.slug = s := by
  unfold save_attributes
  generalize lst.filterMap (fun d => d.instance_) = toSave
  induction toSave with
  | nil => intro db h; exact h
  | cons a rest ih =>
    intro db h
    simp only [List.foldl_cons]
    apply ih
    obtain ⟨b, hmem, hslug⟩ := h
    by_cases hpk : b.pk = a.pk
    · refine ⟨{ b with name := a.name, type_ := a.type_, inputType := a.inputType }, ?_, hslug⟩
      simp only [List.mem_map]
      exact ⟨b, hmem, by rw [if_pos hpk]⟩
    · refine ⟨b, ?_, hslug⟩
      simp only [List.mem_map]
      exact ⟨b, hmem, by rw [if_neg hpk]⟩

/-- Without the reject-everything flag, get_results passes the data through. -/
theorem get_results_false (data : List ItemResult) : get_results data false = data := rfl

/-- Every instance returned by create_or_update_attributes has its slug present
in the state it returns. -/
theorem create_or_update_attributes_instance_slug (policy : Policy) (db : DB)
    (entries : List (Option CleanedAttr × List BulkError)) (d : ItemResult) (a : Attribute)
    (hd : d ∈ (create_or_update_attributes policy db entries).1)
    (hinst : d.instance_ = some a) :
    ∃ b ∈ (create_or_update_attributes policy db entries).2.attributes, b.slug = a.slug := by
  unfold create_or_update_attributes at hd ⊢
  by_cases hp : policy = Policy.rejectFailedRows
  · simp only [hp, if_true, eq_self_iff_true, List.mem_map] at hd
    obtain ⟨d0, hd0, hmap⟩ := hd
    by_cases he : d0.errors.isEmpty
    · rw [if_pos he] at hmap
      subst hmap
      exact create_or_update_go_instance_slug entries db d0 a hd0 hinst
    · rw [if_neg he] at hmap
      subst hmap
      cases hinst
  · simp only [hp, if_false] at hd
    exact create_or_update_go_instance_slug entries db d a hd hinst

/-- C1. The claim says that under REJECT_EVERYTHING a batch with any validation
error leaves the persisted state unchanged. The code contradicts it: the write
loop runs update_or_create before the policy is applied, and the early return
commits those writes. On the two-item batch whose second item lacks a slug, the
call reports count 0 yet the returned committed state contains the attribute
color that the empty initial state did not. -/
theorem C1_reject_everything_still_persists_writes :
    (perform_mutation ctxFull dbEmpty [itemA, itemNoSlug] Policy.rejectEverything).toOption.map
        (fun r => (r.count, r.db.attributes.map (fun a => a.slug)))
      = some (0, ["color"])
    ∧ dbEmpty.attributes = [] := by
  exact ⟨rfl, rfl⟩

/-- C5. The claim says that a per-item capability failure appends exactly one
REQUIRED error, drops the item, and lets the rest of the batch proceed to a
result per input item. The code appends the single REQUIRED error and returns
None, but clean_attributes then assigns into that None cleaned input, so the
whole call raises TypeError instead of returning any result. -/
theorem C5_permission_failure_crashes_call :
    (clean_attribute_input ctxProd itemPage []).1 = none
    ∧ (clean_attribute_input ctxProd itemPage []).2.1 = [permRequiredError]
    ∧ permRequiredError.code = ErrCode.required
    ∧ perform_mutation ctxProd dbEmpty [itemPage] Policy.rejectEverything
        = .error .typeError := by
  exact ⟨rfl, rfl, rfl, rfl⟩

/-- C6. The claim says two items resolving to the same candidate slug get the
base slug and a suffixed slug and are both created. The code contradicts it
(and the docstring of check_generation_slug, which promises a uniqueness check):
two nested values named Red share the generated slug red, the value_slugs
dictionary keeps only the last of them, and a single value row is created, with
no red-2 row. -/
theorem C6_duplicate_value_slugs_collapse :
    (perform_mutation ctxFull dbColor [itemVals] Policy.rejectEverything).toOption.map
        (fun r => r.db.values.map (fun w => (w.slug, w.name)))
      = some [("red", "Red")]
    ∧ check_generation_slug (some "Red") none none none = "red"
    ∧ itemVals.values.length = 2 := by
  refine ⟨by decide, by decide, rfl⟩

/-- C8. The claim says the notifier emits one created event per newly created
entity. The code contradicts it: post_save_actions picks attribute_created only
when the primary key is None, but every saved instance came from
update_or_create and already has a primary key, so a batch that creates a new
attribute from an empty state emits an updated event (the created event type
computed in the write loop is discarded). -/
theorem C8_created_entity_gets_updated_event :
    (perform_mutation ctxFull dbEmpty [itemA] Policy.rejectEverything).toOption.map
        (fun r => (r.count, r.events.map (fun e => e.1),
                   r.db.attributes.map (fun a => (a.slug, a.pk))))
      = some (1, [EventKind.updated], [("color", some 0)])
    ∧ dbEmpty.attributes = [] := by
  exact ⟨rfl, rfl⟩

/-- C7 counterexample. The claim says that when neither joined pair is present
the resolver uses the first present field in the order name, ref, value, code;
with only ref present the slug would be its slugified value x, but
check_generation_slug falls back to `name or code or "-"` and returns the
placeholder. -/
theorem C7_counterexample_ref_only_falls_to_placeholder :
    check_generation_slug none (some "x") none none = "-"
    ∧ check_generation_slug_base none (some "x") none none = "-"
    ∧ slugify (unidecode "x") = "x" := by
  refine ⟨by decide, rfl, by decide⟩

/-- C4. The claim says the mutation always returns a results list aligned to the
input. The code contradicts the always: a batch containing an item that fails
the per-item capability check makes the call raise TypeError, returning nothing
at all. In every run that does return, the results list has exactly one entry
per input item, in input order (the alignment the claim describes). -/
theorem C4_alignment_holds_only_without_crash :
    perform_mutation ctxProd dbEmpty [itemA, itemPage] Policy.rejectEverything
        = .error .typeError
    ∧ ∀ (ctx : Ctx) (db : DB) (batch : List AttrInput) (policy : Policy)
        (r : MutationOutcome),
        perform_mutation ctx db batch policy = .ok r → r.results.length = batch.length := by
  constructor
  · rfl
  · intro ctx db batch policy r hrun
    obtain ⟨entries, _hclean, helen, _hent, hcase⟩ :=
      perform_mutation_ok_cases ctx db batch policy r hrun
    rcases hcase with ⟨_, _, hr⟩ | ⟨_, hr⟩ <;> subst hr <;>
      simp [get_results_length, create_or_update_attributes_length, helen]

/-- C4 witness: a completed two-item run returns two results. -/
theorem C4_witness : c4res.results.length = 2 :=
  C4_alignment_holds_only_without_crash.2 ctxFull dbEmpty [itemA, itemB]
    Policy.rejectEverything c4res rfl

/-- C2 counterexample. A five-item batch whose single invalid item fails the
capability check makes the call raise TypeError: no count and no results are
returned, so the claimed count 0 with five null instances does not happen. -/
theorem C2_counterexample_crash_instead_of_results :
    perform_mutation ctxProd dbEmpty batch5crash Policy.rejectEverything
      = .error .typeError := by
  rfl

/-- C2 (amended): in a five-item run under REJECT_EVERYTHING that returns
normally with errors recorded exactly at one index, the call returns count 0 and
all five instances are absent while the error lists are returned as recorded. -/
theorem C2_reject_everything_zeroes_completed_batch (ctx : Ctx) (db : DB)
    (batch : List AttrInput) (r : MutationOutcome) (j : Nat)
    (hrun : perform_mutation ctx db batch Policy.rejectEverything = .ok r)
    (hlen : batch.length = 5) (hj : j < 5)
    (herr : ∀ (i : Nat) (x : ItemResult), r.results.get? i = some x →
        (x.errors = [] ↔ i ≠ j)) :
    r.count = 0 ∧ r.results.length = 5 ∧ ∀ x ∈ r.results, x.instance_ = none := by
  obtain ⟨entries, _hclean, helen, _hent, hcase⟩ :=
    perform_mutation_ok_cases ctx db batch Policy.rejectEverything r hrun
  rcases hcase with ⟨_hie, _, hr⟩ | ⟨hne, hr⟩
  · subst hr
    refine ⟨rfl, ?_, ?_⟩
    · simp [get_results_length, create_or_update_attributes_length, helen, hlen]
    · intro x hx
      unfold get_results at hx
      simp only [if_pos, List.mem_map] at hx
      obtain ⟨d, _, rfl⟩ := hx
      rfl
  · exfalso
    have hie : inputs_have_errors
        (create_or_update_attributes Policy.rejectEverything db entries).1 = false := by
      rcases Bool.eq_false_or_eq_true
        (inputs_have_errors (create_or_update_attributes Policy.rejectEverything db entries).1)
        with h | h
      · exact absurd ⟨h, rfl⟩ hne
      · exact h
    have hall := inputs_have_errors_false _ hie
    subst hr
    have hdl : (create_or_update_attributes Policy.rejectEverything db entries).1.length = 5 := by
      rw [create_or_update_attributes_length, helen, hlen]
    have hjl : j < (create_or_update_attributes Policy.rejectEverything db entries).1.length := by
      omega
    have hget := List.get?_eq_get hjl
    have hx := herr j _ hget
    have hmem := List.get_mem (create_or_update_attributes Policy.rejectEverything db entries).1
      j hjl
    exact (hx.mp (hall _ hmem)) rfl

/-- C2 witness: the amended statement at the concrete five-item batch whose
fifth item lacks a slug. -/
theorem C2_witness :
    c2res.count = 0 ∧ c2res.results.length = 5 ∧ ∀ x ∈ c2res.results, x.instance_ = none := by
  apply C2_reject_everything_zeroes_completed_batch ctxFull dbEmpty batch5 c2res 4 rfl rfl
    (by decide)
  intro i x h
  match i, h with
  | 0, h => cases h; decide
  | 1, h => cases h; decide
  | 2, h => cases h; decide
  | 3, h => cases h; decide
  | 4, h => cases h; decide
  | n + 5, h => exact nomatch h

/-- C3 counterexample. A five-item batch whose single invalid item fails the
capability check makes the call raise TypeError under REJECT_FAILED_ROWS as
well: no count 4 and no per-row results are returned. -/
theorem C3_counterexample_crash_instead_of_commit :
    perform_mutation ctxProd dbEmpty batch5crash Policy.rejectFailedRows
      = .error .typeError := by
  rfl

/-- C3 (amended): in a five-item run under REJECT_FAILED_ROWS that returns
normally with errors recorded exactly at one index, the call returns count 4,
the failing index has an absent instance with its errors populated, and every
other index has a present instance whose slug is committed in the returned
state. -/
theorem C3_reject_failed_rows_commits_passing_rows (ctx : Ctx) (db : DB)
    (batch : List AttrInput) (r : MutationOutcome) (j : Nat)
    (hrun : perform_mutation ctx db batch Policy.rejectFailedRows = .ok r)
    (hlen : batch.length = 5) (hj : j < 5)
    (herr : ∀ (i : Nat) (x : ItemResult), r.results.get? i = some x →
        (x.errors = [] ↔ i ≠ j)) :
    r.count = 4 ∧ r.results.length = 5
    ∧ (∀ x, r.results.get? j = some x → x.instance_ = none ∧ x.errors ≠ [])
    ∧ ∀ (i : Nat) (x : ItemResult), i ≠ j → r.results.get? i = some x →
        ∃ a, x.instance_ = some a ∧ x.errors = []
          ∧ ∃ b ∈ r.db.attributes, b.slug = a.slug := by
  obtain ⟨entries, _hclean, helen, hent, hcase⟩ :=
    perform_mutation_ok_cases ctx db batch Policy.rejectFailedRows r hrun
  rcases hcase with ⟨_, hpol, _⟩ | ⟨_hne, hr⟩
  · cases hpol
  · subst hr
    have hiff := create_or_update_rfr_none_iff db entries hent
    have hdl : (create_or_update_attributes Policy.rejectFailedRows db entries).1.length = 5 := by
      rw [create_or_update_attributes_length, helen, hlen]
    have hjl : j < (create_or_update_attributes Policy.rejectFailedRows db entries).1.length := by
      omega
    have hgetj := List.get?_eq_get hjl
    have hmemj := List.get_mem (create_or_update_attributes Policy.rejectFailedRows db entries).1
      j hjl
    have herrj : ((create_or_update_attributes Policy.rejectFailedRows db entries).1.get
        ⟨j, hjl⟩).errors ≠ [] := by
      intro hcon
      exact (herr j _ hgetj).mp hcon rfl
    have hnonej := (hiff _ hmemj).mpr herrj
    have hsome : ∀ (i : Nat)
        (hi : i < (create_or_update_attributes Policy.rejectFailedRows db entries).1.length),
        i ≠ j →
        ((create_or_update_attributes Policy.rejectFailedRows db entries).1.get
          ⟨i, hi⟩).instance_.isSome = true := by
      intro i hi hne
      have hget := List.get?_eq_get hi
      have hmem := List.get_mem (create_or_update_attributes Policy.rejectFailedRows db entries).1
        i hi
      have he : ((create_or_update_attributes Policy.rejectFailedRows db entries).1.get
          ⟨i, hi⟩).errors = [] := (herr i _ hget).mpr hne
      have := (hiff _ hmem)
      rw [Option.isSome_iff_ne_none]
      intro hcon
      exact (this.mp hcon) he
    have hcount := filterMap_instance_one_none
      (create_or_update_attributes Policy.rejectFailedRows db entries).1 j hjl hnonej hsome
    refine ⟨?_, ?_, ?_, ?_⟩
    · show (save_attributes _ _).1.length = 4
      unfold save_attributes
      simp only []
      omega
    · simp [get_results_length, hdl]
    · intro x hx
      rw [show (get_results (create_or_update_attributes Policy.rejectFailedRows db entries).1
          false) = (create_or_update_attributes Policy.rejectFailedRows db entries).1 from rfl]
        at hx
      rw [hgetj] at hx
      cases hx
      exact ⟨hnonej, herrj⟩
    · intro i x hne hx
      rw [show (get_results (create_or_update_attributes Policy.rejectFailedRows db entries).1
          false) = (create_or_update_attributes Policy.rejectFailedRows db entries).1 from rfl]
        at hx
      have hmem := List.get?_mem hx
      have he : x.errors = [] := (herr i x (by exact hx)).mpr hne
      have hxsome : x.instance_ ≠ none := by
        intro hcon
        exact (hiff _ hmem).mp hcon he
      obtain ⟨a, ha⟩ := Option.ne_none_iff_exists.mp hxsome
      refine ⟨a, ha.symm, he, ?_⟩
      have hslug := create_or_update_attributes_instance_slug Policy.rejectFailedRows db entries
        x a hmem ha.symm
      exact save_attributes_preserves _ a.slug _ hslug

/-- A falsy field falls through to the default. -/
theorem orElseStr_falsy (o : Option String) (d : String) (h : truthy o = false) :
    orElseStr o d = d := by
  cases o with
  | none => rfl
  | some s =>
    have hs : s.isEmpty = true := by simpa [truthy] using h
    simp [orElseStr, hs]

/-- A truthy field ignores the default. -/
theorem orElseStr_truthy (o : Option String) (d : String) (h : truthy o = true) :
    orElseStr o d = orElseStr o "" := by
  cases o with
  | none => simp [truthy] at h
  | some s =>
    have hs : s.isEmpty = false := by simpa [truthy] using h
    simp [orElseStr, hs]

/-- C7 (amended). AttributeMixin.generate_slug builds its base string by exactly
the claimed priority (with placeholder default-slug): ref and value joined, else
name and code joined, else the first present of name, ref, value, code.
check_generation_slug follows branches (a) and (b), but its fallback consults
only name then code and otherwise yields the placeholder "-": ref and value are
ignored whenever they are not both present. -/
theorem C7_amended_slug_base_priorities :
    (∀ ref value name code : Option String,
        generate_slug_base ref value name code
          = specSlugBasePriority name ref value code "default-slug")
    ∧ (∀ name ref value code : Option String,
        truthy ref = true → truthy value = true →
        check_generation_slug_base name ref value code
          = orElseStr ref "" ++ "-" ++ orElseStr value "")
    ∧ (∀ name ref value code : Option String,
        ¬(truthy ref = true ∧ truthy value = true) →
        truthy name = true → truthy code = true →
        check_generation_slug_base name ref value code
          = orElseStr name "" ++ "-" ++ orElseStr code "")
    ∧ (∀ ref value : Option String,
        ¬(truthy ref = true ∧ truthy value = true) →
        check_generation_slug_base none ref value none = "-") := by
  refine ⟨?_, ?_, ?_, ?_⟩
  · intro ref value name code
    unfold generate_slug_base specSlugBasePriority
    cases hr : truthy ref <;> cases hv : truthy value <;>
      cases hn : truthy name <;> cases hc : truthy code <;>
      simp only [Bool.false_and, Bool.and_false, Bool.true_and, Bool.and_true,
        if_true, if_false, Bool.false_eq_true, ite_false, ite_true] <;>
      simp [orElseStr_falsy, orElseStr_truthy, hr, hv, hn, hc]
  · intro name ref value code h1 h2
    unfold check_generation_slug_base
    simp [h1, h2]
  · intro name ref value code h h1 h2
    have hrv : (truthy ref && truthy value) = false := by
      cases hr : truthy ref <;> cases hv : truthy value <;> simp_all
    unfold check_generation_slug_base
    rw [hrv]
    simp [h1, h2, orElseStr_truthy]
  · intro ref value h
    have hrv : (truthy ref && truthy value) = false := by
      cases hr : truthy ref <;> cases hv : truthy value <;> simp_all
    unfold check_generation_slug_base
    rw [hrv]
    simp [truthy, orElseStr]

/-- C7 witness: the amended statement at concrete field combinations. -/
theorem C7_amended_witness :
    generate_slug_base (some "x") none (some "n") none
        = specSlugBasePriority (some "n") (some "x") none none "default-slug"
    ∧ check_generation_slug_base (some "n") (some "r") (some "v") (some "c")
        = orElseStr (some "r") "" ++ "-" ++ orElseStr (some "v") ""
    ∧ check_generation_slug_base (some "n") none none (some "c")
        = orElseStr (some "n") "" ++ "-" ++ orElseStr (some "c") ""
    ∧ check_generation_slug_base none (some "x") none none = "-" :=
  ⟨C7_amended_slug_base_priorities.1 (some "x") none (some "n") none,
   C7_amended_slug_base_priorities.2.1 (some "n") (some "r") (some "v") (some "c")
     (by decide) (by decide),
   C7_amended_slug_base_priorities.2.2.1 (some "n") none none (some "c")
     (by decide) (by decide) (by decide),
   C7_amended_slug_base_priorities.2.2.2 (some "x") none (by decide)⟩

/-- clean_attribute_input never removes slugs from the shared set. -/
theorem clean_attribute_input_slugs_mono (ctx : Ctx) (a : AttrInput)
    (slugs : List String) (o : Option CleanedAttr) (errs : List BulkError)
    (slugs' : List String)
    (h : clean_attribute_input ctx a slugs = (o, errs, slugs')) (s : String)
    (hs : s ∈ slugs) : s ∈ slugs' := by
  unfold clean_attribute_input at h
  by_cases h1 : check_permissions ctx
      (if a.type_ = "PRODUCT_TYPE" then [Perm.manageProductTypes]
       else [Perm.managePageTypes]) = false
  · rw [if_pos h1] at h; cases h; exact hs
  · rw [if_neg h1] at h
    by_cases h2 : (a.inputType = some "REFERENCE" && !truthy a.entityType) = true
    · rw [if_pos h2] at h; cases h; exact hs
    · rw [if_neg h2] at h
      cases hcv : configViolation a.inputType a.extraFields with
      | some f => rw [hcv] at h; cases h; exact hs
      | none =>
        rw [hcv] at h
        cases hgen : generate_slug_for_input (orElseStr a.slug "") slugs with
        | mk unique slugs2 =>
          rw [hgen] at h
          cases hv : (if a.values.isEmpty = true then (([] : List ValueInput), ([] : List BulkError))
              else clean_values a.values) with
          | mk cv ve =>
            rw [hv] at h
            cases h
            unfold generate_slug_for_input at hgen
            cases hgen
            exact List.mem_cons_of_mem _ hs

/-- A cleaning step never removes slugs from the shared set. -/
theorem clean_step_slugs_mono (ctx : Ctx) (slugs : List String) (a : AttrInput)
    (entry : Option CleanedAttr) (errs : List BulkError) (slugs' : List String)
    (h : clean_step ctx slugs a = .ok (entry, errs, slugs')) (s : String)
    (hs : s ∈ slugs) : s ∈ slugs' := by
  unfold clean_step at h
  split at h
  · cases h; exact hs
  next s0 =>
    split at h
    · cases h; exact hs
    · split at h
      · cases h; exact hs
      · split at h
        · cases h; exact hs
        · split at h
          · cases h
          next c errs0 slugs0 hci =>
            cases h
            exact clean_attribute_input_slugs_mono ctx a slugs _ _ _ hci s hs

/-- A cleaning step on an item whose slug is already in the shared set returns
the passthrough entry with no errors. -/
theorem clean_step_passthrough (ctx : Ctx) (slugs : List String) (b : AttrInput)
    (s : String) (hslug : b.slug = some s) (hne : s.isEmpty = false) (hs : s ∈ slugs) :
    clean_step ctx slugs b = .ok (some (raw_as_cleaned b s), [], slugs) := by
  simp [clean_step, hslug, hne, hs]

/-- An item whose slug is already in the shared set passes through the cleaning
loop unchanged and without errors, at its own index. -/
theorem clean_go_passthrough (ctx : Ctx) (s : String) :
    ∀ (batch : List AttrInput) (slugs : List String) (i : Nat) (a : AttrInput)
      (entries : List (Option CleanedAttr × List BulkError)),
    s ∈ slugs → clean_go ctx slugs batch = .ok entries →
    batch.get? i = some a → a.slug = some s → s.isEmpty = false →
    entries.get? i = some (some (raw_as_cleaned a s), []) := by
  intro batch
  induction batch with
  | nil => intro slugs i a entries _ _ hget; cases hget
  | cons b rest ih =>
    intro slugs i a entries hs hok hget hslug hne
    simp only [clean_go] at hok
    split at hok
    · cases hok
    next entry errs slugs' hstep =>
      split at hok
      · cases hok
      next tail hr =>
        cases hok
        cases i with
        | zero =>
          cases hget
          rw [clean_step_passthrough ctx slugs b s hslug hne hs] at hstep
          cases hstep
          rfl
        | succ k =>
          have hs' := clean_step_slugs_mono ctx slugs b entry errs slugs' hstep s hs
          exact ih slugs' k a tail hs' hr hget hslug hne

/-- C9. An item whose input slug equals the slug of a persisted attribute is
passed through cleaning verbatim: no error is recorded at its index and none of
the per-item checks run, the raw input itself (values included) being handed to
the create-or-update stage. -/
theorem C9_existing_slug_bypasses_validation (ctx : Ctx) (db : DB)
    (batch : List AttrInput) (i : Nat) (a : AttrInput) (s : String)
    (entries : List (Option CleanedAttr × List BulkError))
    (hget : batch.get? i = some a) (hslug : a.slug = some s) (hne : s.isEmpty = false)
    (hdb : ∃ b ∈ db.attributes, b.slug = s)
    (hok : clean_attributes ctx db batch = .ok entries) :
    entries.get? i = some (some (raw_as_cleaned a s), []) := by
  apply clean_go_passthrough ctx s batch _ i a entries ?_ hok hget hslug hne
  obtain ⟨b, hbm, hbs⟩ := hdb
  unfold existing_slugs_query
  rw [List.mem_filter]
  refine ⟨?_, ?_⟩
  · rw [List.mem_map]; exact ⟨b, hbm, hbs⟩
  · rw [List.any_eq_true]
    exact ⟨a, List.get?_mem hget, by simp [hslug]⟩

/-- C9 witness: an update item whose slug matches a persisted attribute passes
through even though it carries a deprecated field, a type the caller lacks
permission for, and nested values. -/
theorem C9_witness :
    c9entries.get? 1 = some (some (raw_as_cleaned itemLegacy "legacy"), []) :=
  C9_existing_slug_bypasses_validation ctxProd dbLegacy [itemA, itemLegacy] 1 itemLegacy
    "legacy" c9entries rfl rfl rfl (by decide) rfl

/-- C3 witness: the amended statement at the concrete five-item batch whose
fifth item lacks a slug, under REJECT_FAILED_ROWS. -/
theorem C3_witness :
    c3res.count = 4 ∧ c3res.results.length = 5
    ∧ (∀ x, c3res.results.get? 4 = some x → x.instance_ = none ∧ x.errors ≠ []) := by
  have h := C3_reject_failed_rows_commits_passing_rows ctxFull dbEmpty batch5 c3res 4 rfl rfl
    (by decide) ?herr
  · exact ⟨h.1, h.2.1, h.2.2.1⟩
  case herr =>
    intro i x h
    match i, h with
    | 0, h => cases h; decide
    | 1, h => cases h; decide
    | 2, h => cases h; decide
    | 3, h => cases h; decide
    | 4, h => cases h; decide
    | n + 5, h => exact nomatch h

/-- The category written by cat_update_or_create carries the update slug. -/
theorem cat_uoc_slug (db : CatDB) (u : CategoryUpdate) :
    (cat_update_or_create db u).1.slug = u.slug := by
  unfold cat_update_or_create
  cases hf : db.cats.find? (fun c => c.slug = u.slug) with
  | none => rfl
  | some c =>
    have := List.find?_some hf
    simpa using this

/-- After cat_update_or_create a row with the written key and the update slug is
present. -/
theorem cat_uoc_pk_mem (db : CatDB) (u : CategoryUpdate) :
    ∃ x ∈ (cat_update_or_create db u).2.cats,
      x.pk = (cat_update_or_create db u).1.pk ∧ x.slug = u.slug := by
  unfold cat_update_or_create
  cases hf : db.cats.find? (fun c => c.slug = u.slug) with
  | none =>
    refine ⟨{ pk := db.nextPk, slug := u.slug, name := u.name,
              description := u.description, parentPk := none }, ?_, rfl, rfl⟩
    simp
  | some c =>
    have hcs := List.find?_some hf
    simp only [decide_eq_true_eq] at hcs
    have hcm := List.mem_of_find?_eq_some hf
    refine ⟨{ c with name := u.name, description := u.description }, ?_, rfl, hcs⟩
    simp only [List.mem_map]
    exact ⟨c, hcm, by rw [if_pos hcs]⟩

/-- cat_update_or_create preserves the presence of any slug. -/
theorem cat_uoc_slug_preserved (db : CatDB) (u : CategoryUpdate) (s : String)
    (h : ∃ c ∈ db.cats, c.slug = s) :
    ∃ c ∈ (cat_update_or_create db u).2.cats, c.slug = s := by
  obtain ⟨c, hm, hcs⟩ := h
  unfold cat_update_or_create
  cases hf : db.cats.find? (fun x => x.slug = u.slug) with
  | none => exact ⟨c, by simp [hm], hcs⟩
  | some c0 =>
    have hc0 := List.find?_some hf
    simp only [decide_eq_true_eq] at hc0
    by_cases hcu : c.slug = u.slug
    · refine ⟨{ c0 with name := u.name, description := u.description }, ?_, ?_⟩
      · simp only [List.mem_map]
        exact ⟨c, hm, by rw [if_pos hcu]⟩
      · show c0.slug = s
        rw [hc0, ← hcu, hcs]
    · refine ⟨c, ?_, hcs⟩
      simp only [List.mem_map]
      exact ⟨c, hm, by rw [if_neg hcu]⟩

/-- cat_update_or_create preserves well-formedness. -/
theorem cat_uoc_wf (db : CatDB) (u : CategoryUpdate) (hwf : CatWF db) :
    CatWF (cat_update_or_create db u).2 := by
  obtain ⟨hpk, hslug, hbound⟩ := hwf
  unfold cat_update_or_create
  cases hf : db.cats.find? (fun c => c.slug = u.slug) with
  | none =>
    have hnot : ∀ c ∈ db.cats, c.slug ≠ u.slug := by
      intro c hc
      have := List.find?_eq_none.mp hf c hc
      simpa using this
    refine ⟨?_, ?_, ?_⟩
    · simp only [List.map_append, List.map_cons, List.map_nil]
      rw [List.nodup_append]
      refine ⟨hpk, List.nodup_singleton _, ?_⟩
      intro x hx hx1
      simp only [List.mem_singleton] at hx1
      rw [List.mem_map] at hx
      obtain ⟨c, hc, hcx⟩ := hx
      have := hbound c hc
      omega
    · simp only [List.map_append, List.map_cons, List.map_nil]
      rw [List.nodup_append]
      refine ⟨hslug, List.nodup_singleton _, ?_⟩
      intro x hx hx1
      simp only [List.mem_singleton] at hx1
      rw [List.mem_map] at hx
      obtain ⟨c, hc, hcx⟩ := hx
      exact hnot c hc (by rw [hcx, hx1])
    · intro c hc
      simp only [List.mem_append, List.mem_singleton] at hc
      show c.pk < db.nextPk + 1
      rcases hc with hc | hc
      · have := hbound c hc
        omega
      · rw [hc]
        exact Nat.lt_succ_self _
  | some c0 =>
    have hc0s := List.find?_some hf
    simp only [decide_eq_true_eq] at hc0s
    have hc0m := List.mem_of_find?_eq_some hf
    have hinj := List.inj_on_of_nodup_map hslug
    have hmapeq : ∀ x ∈ db.cats,
        ((if x.slug = u.slug then { c0 with name := u.name, description := u.description }
          else x).pk = x.pk
        ∧ (if x.slug = u.slug then { c0 with name := u.name, description := u.description }
            else x).slug = x.slug) := by
      intro x hx
      by_cases hxu : x.slug = u.slug
      · have hxc0 : x = c0 := hinj hx hc0m (by rw [hxu, hc0s])
        rw [if_pos hxu]
        exact ⟨by rw [hxc0], by rw [hxc0]⟩
      · rw [if_neg hxu]
        exact ⟨rfl, rfl⟩
    refine ⟨?_, ?_, ?_⟩
    · rw [List.map_map]
      have heq : db.cats.map ((fun c => c.pk) ∘ (fun x =>
          if x.slug = u.slug then { c0 with name := u.name, description := u.description }
          else x)) = db.cats.map (fun c => c.pk) := by
        apply List.map_congr_left
        intro x hx
        exact (hmapeq x hx).1
      rw [heq]
      exact hpk
    · rw [List.map_map]
      have heq : db.cats.map ((fun c => c.slug) ∘ (fun x =>
          if x.slug = u.slug then { c0 with name := u.name, description := u.description }
          else x)) = db.cats.map (fun c => c.slug) := by
        apply List.map_congr_left
        intro x hx
        exact (hmapeq x hx).2
      rw [heq]
      exact hslug
    · intro y hy
      rw [List.mem_map] at hy
      obtain ⟨x, hx, hxy⟩ := hy
      have := (hmapeq x hx).1
      rw [hxy] at this
      show y.pk < db.nextPk
      rw [this]
      exact hbound x hx

/-- cat_save keeps the key and slug columns when the saved instance agrees in
slug with every row sharing its key. -/
theorem cat_save_fields (db : CatDB) (c : Category)
    (hpremise : ∀ x ∈ db.cats, x.pk = c.pk → x.slug = c.slug) :
    (cat_save db c).cats.map (fun x => x.pk) = db.cats.map (fun x => x.pk)
    ∧ (cat_save db c).cats.map (fun x => x.slug) = db.cats.map (fun x => x.slug)
    ∧ (cat_save db c).nextPk = db.nextPk := by
  unfold cat_save
  refine ⟨?_, ?_, rfl⟩
  · rw [List.map_map]
    apply List.map_congr_left
    intro x hx
    simp only [Function.comp_apply]
    by_cases hp : x.pk = c.pk
    · rw [if_pos hp]
      exact hp.symm
    · rw [if_neg hp]
  · rw [List.map_map]
    apply List.map_congr_left
    intro x hx
    simp only [Function.comp_apply]
    by_cases hp : x.pk = c.pk
    · rw [if_pos hp]
      exact (hpremise x hx hp).symm
    · rw [if_neg hp]

/-- cat_save preserves well-formedness under the same agreement premise. -/
theorem cat_save_wf (db : CatDB) (c : Category)
    (hpremise : ∀ x ∈ db.cats, x.pk = c.pk → x.slug = c.slug) (hwf : CatWF db) :
    CatWF (cat_save db c) := by
  obtain ⟨h1, h2, _⟩ := cat_save_fields db c hpremise
  obtain ⟨hpk, hslug, hbound⟩ := hwf
  refine ⟨by rw [h1]; exact hpk, by rw [h2]; exact hslug, ?_⟩
  intro y hy
  unfold cat_save at hy
  rw [List.mem_map] at hy
  obtain ⟨x, hx, hxy⟩ := hy
  show y.pk < db.nextPk
  by_cases hp : x.pk = c.pk
  · rw [← hxy, if_pos hp, ← hp]
    exact hbound x hx
  · rw [← hxy, if_neg hp]
    exact hbound x hx

/-- cat_save preserves the presence of any slug under the agreement premise. -/
theorem cat_save_slug_preserved (db : CatDB) (c : Category)
    (hpremise : ∀ x ∈ db.cats, x.pk = c.pk → x.slug = c.slug) (s : String)
    (h : ∃ x ∈ db.cats, x.slug = s) :
    ∃ x ∈ (cat_save db c).cats, x.slug = s := by
  obtain ⟨_, h2, _⟩ := cat_save_fields db c hpremise
  have hmem : s ∈ (cat_save db c).cats.map (fun x => x.slug) := by
    rw [h2, List.mem_map]
    obtain ⟨x, hx, hxs⟩ := h
    exact ⟨x, hx, hxs⟩
  rw [List.mem_map] at hmem
  obtain ⟨x, hx, hxs⟩ := hmem
  exact ⟨x, hx, hxs⟩

/-- Any row sharing the key of the just-upserted instance carries the update
slug, provided the table was well formed. -/
theorem cat_uoc_save_premise (db : CatDB) (u : CategoryUpdate) (hwf : CatWF db)
    (c : Category) (hcpk : c.pk = (cat_update_or_create db u).1.pk)
    (hcslug : c.slug = u.slug) :
    ∀ x ∈ (cat_update_or_create db u).2.cats, x.pk = c.pk → x.slug = c.slug := by
  intro x hx hxpk
  obtain ⟨hpkN, _, _⟩ := cat_uoc_wf db u hwf
  obtain ⟨y, hy, hypk, hyslug⟩ := cat_uoc_pk_mem db u
  have hinj := List.inj_on_of_nodup_map hpkN
  have hxy : x = y := hinj hx hy (by rw [hxpk, hcpk, hypk])
  rw [hxy, hyslug, hcslug]

/-- category_step without a truthy parent slug: upsert and save. -/
theorem cat_step_eq_noparent (errs slugs : List String) (db : CatDB) (u : CategoryUpdate)
    (h : u.parentSlug = none ∨ ∃ p, u.parentSlug = some p ∧ p.isEmpty = true) :
    category_step (errs, slugs, db) u =
      (errs, slugs ++ [u.slug],
        cat_save (cat_update_or_create db u).2 (cat_update_or_create db u).1) := by
  rcases h with h | ⟨p, h, hpe⟩
  · simp [category_step, h]
  · simp [category_step, h, hpe]

/-- category_step with a truthy parent slug that resolves: upsert, set the
parent, save. -/
theorem cat_step_eq_found (errs slugs : List String) (db : CatDB) (u : CategoryUpdate)
    (p : String) (parent : Category) (hps : u.parentSlug = some p)
    (hpe : p.isEmpty = false)
    (hfind : (cat_update_or_create db u).2.cats.find? (fun c => c.slug = p) = some parent) :
    category_step (errs, slugs, db) u =
      (errs, slugs ++ [u.slug],
        cat_save (cat_update_or_create db u).2
          { (cat_update_or_create db u).1 with parentPk := some parent.pk }) := by
  simp [category_step, hps, hpe, hfind]

/-- category_step with a truthy parent slug that resolves to nothing: the error
is appended, the parent nulled, and the row still saved. -/
theorem cat_step_eq_missing (errs slugs : List String) (db : CatDB) (u : CategoryUpdate)
    (p : String) (hps : u.parentSlug = some p) (hpe : p.isEmpty = false)
    (hfind : (cat_update_or_create db u).2.cats.find? (fun c => c.slug = p) = none) :
    category_step (errs, slugs, db) u =
      (errs ++ [parentMissingError p], slugs ++ [u.slug],
        cat_save (cat_update_or_create db u).2
          { (cat_update_or_create db u).1 with parentPk := none }) := by
  simp [category_step, hps, hpe, hfind]

/-- One category step preserves well-formedness. -/
theorem cat_step_wf (errs slugs : List String) (db : CatDB) (u : CategoryUpdate)
    (hwf : CatWF db) : CatWF (category_step (errs, slugs, db) u).2.2 := by
  have hwf1 := cat_uoc_wf db u hwf
  cases hps : u.parentSlug with
  | none =>
    rw [cat_step_eq_noparent errs slugs db u (Or.inl hps)]
    exact cat_save_wf _ _ (cat_uoc_save_premise db u hwf _ rfl (cat_uoc_slug db u)) hwf1
  | some p =>
    by_cases hpe : p.isEmpty
    · rw [cat_step_eq_noparent errs slugs db u (Or.inr ⟨p, hps, hpe⟩)]
      exact cat_save_wf _ _ (cat_uoc_save_premise db u hwf _ rfl (cat_uoc_slug db u)) hwf1
    · rw [Bool.not_eq_true] at hpe
      cases hfind : (cat_update_or_create db u).2.cats.find? (fun c => c.slug = p) with
      | some parent =>
        rw [cat_step_eq_found errs slugs db u p parent hps hpe hfind]
        exact cat_save_wf _ { (cat_update_or_create db u).1 with parentPk := some parent.pk }
          (cat_uoc_save_premise db u hwf
            { (cat_update_or_create db u).1 with parentPk := some parent.pk } rfl
            (cat_uoc_slug db u)) hwf1
      | none =>
        rw [cat_step_eq_missing errs slugs db u p hps hpe hfind]
        exact cat_save_wf _ { (cat_update_or_create db u).1 with parentPk := none }
          (cat_uoc_save_premise db u hwf
            { (cat_update_or_create db u).1 with parentPk := none } rfl
            (cat_uoc_slug db u)) hwf1

/-- One category step preserves the presence of any slug. -/
theorem cat_step_slug_preserved (errs slugs : List String) (db : CatDB)
    (u : CategoryUpdate) (hwf : CatWF db) (s : String)
    (h : ∃ c ∈ db.cats, c.slug = s) :
    ∃ c ∈ (category_step (errs, slugs, db) u).2.2.cats, c.slug = s := by
  have h1 := cat_uoc_slug_preserved db u s h
  cases hps : u.parentSlug with
  | none =>
    rw [cat_step_eq_noparent errs slugs db u (Or.inl hps)]
    exact cat_save_slug_preserved _ _
      (cat_uoc_save_premise db u hwf _ rfl (cat_uoc_slug db u)) s h1
  | some p =>
    by_cases hpe : p.isEmpty
    · rw [cat_step_eq_noparent errs slugs db u (Or.inr ⟨p, hps, hpe⟩)]
      exact cat_save_slug_preserved _ _
        (cat_uoc_save_premise db u hwf _ rfl (cat_uoc_slug db u)) s h1
    · rw [Bool.not_eq_true] at hpe
      cases hfind : (cat_update_or_create db u).2.cats.find? (fun c => c.slug = p) with
      | some parent =>
        rw [cat_step_eq_found errs slugs db u p parent hps hpe hfind]
        exact cat_save_slug_preserved _
          { (cat_update_or_create db u).1 with parentPk := some parent.pk }
          (cat_uoc_save_premise db u hwf
            { (cat_update_or_create db u).1 with parentPk := some parent.pk } rfl
            (cat_uoc_slug db u)) s h1
      | none =>
        rw [cat_step_eq_missing errs slugs db u p hps hpe hfind]
        exact cat_save_slug_preserved _
          { (cat_update_or_create db u).1 with parentPk := none }
          (cat_uoc_save_premise db u hwf
            { (cat_update_or_create db u).1 with parentPk := none } rfl
            (cat_uoc_slug db u)) s h1

/-- One category step never drops collected errors. -/
theorem cat_step_errors_mono (errs slugs : List String) (db : CatDB)
    (u : CategoryUpdate) (e : String) (h : e ∈ errs) :
    e ∈ (category_step (errs, slugs, db) u).1 := by
  cases hps : u.parentSlug with
  | none =>
    rw [cat_step_eq_noparent errs slugs db u (Or.inl hps)]
    exact h
  | some p =>
    by_cases hpe : p.isEmpty
    · rw [cat_step_eq_noparent errs slugs db u (Or.inr ⟨p, hps, hpe⟩)]
      exact h
    · rw [Bool.not_eq_true] at hpe
      cases hfind : (cat_update_or_create db u).2.cats.find? (fun c => c.slug = p) with
      | some parent =>
        rw [cat_step_eq_found errs slugs db u p parent hps hpe hfind]
        exact h
      | none =>
        rw [cat_step_eq_missing errs slugs db u p hps hpe hfind]
        exact List.mem_append_left _ h

/-- The category loop preserves well-formedness, slug presence and collected
errors. -/
theorem cat_fold_preserves :
    ∀ (l : List CategoryUpdate) (errs slugs : List String) (db : CatDB)
      (s : String) (e : String),
    CatWF db → (∃ c ∈ db.cats, c.slug = s) → e ∈ errs →
    CatWF ((l.foldl category_step (errs, slugs, db)).2.2)
    ∧ (∃ c ∈ (l.foldl category_step (errs, slugs, db)).2.2.cats, c.slug = s)
    ∧ e ∈ (l.foldl category_step (errs, slugs, db)).1 := by
  intro l
  induction l with
  | nil => intro errs slugs db s e hwf hs he; exact ⟨hwf, hs, he⟩
  | cons u rest ih =>
    intro errs slugs db s e hwf hs he
    simp only [List.foldl_cons]
    have hwf' := cat_step_wf errs slugs db u hwf
    have hs' := cat_step_slug_preserved errs slugs db u hwf s hs
    have he' := cat_step_errors_mono errs slugs db u e he
    exact ih (category_step (errs, slugs, db) u).1 (category_step (errs, slugs, db) u).2.1
      (category_step (errs, slugs, db) u).2.2 s e hwf' hs' he'

/-- The category loop preserves well-formedness. -/
theorem cat_fold_wf :
    ∀ (l : List CategoryUpdate) (errs slugs : List String) (db : CatDB),
    CatWF db → CatWF ((l.foldl category_step (errs, slugs, db)).2.2) := by
  intro l
  induction l with
  | nil => intro errs slugs db hwf; exact hwf
  | cons u rest ih =>
    intro errs slugs db hwf
    simp only [List.foldl_cons]
    exact ih (category_step (errs, slugs, db) u).1 (category_step (errs, slugs, db) u).2.1
      (category_step (errs, slugs, db) u).2.2 (cat_step_wf errs slugs db u hwf)

/-- A fold over a list splits at any position holding a known element. -/
theorem foldl_split {α β : Type} (f : β → α → β) :
    ∀ (l : List α) (j : Nat) (u : α), l.get? j = some u → ∀ (init : β),
    l.foldl f init = (l.drop (j + 1)).foldl f (f ((l.take j).foldl f init) u) := by
  intro l
  induction l with
  | nil => intro j u h; cases h
  | cons a rest ih =>
    intro j u h init
    cases j with
    | zero => cases h; rfl
    | succ k => exact ih k u h (f init a)

/-- A category step whose parent slug resolves to nothing appends exactly the
missing-parent message and still writes the row, with a null parent. -/
theorem cat_step_missing_write (errs slugs : List String) (db : CatDB)
    (u : CategoryUpdate) (p : String) (hps : u.parentSlug = some p)
    (hpe : p.isEmpty = false)
    (hmiss : ∀ c ∈ (cat_update_or_create db u).2.cats, c.slug ≠ p) :
    (category_step (errs, slugs, db) u).1 = errs ++ [parentMissingError p]
    ∧ ∃ c ∈ (category_step (errs, slugs, db) u).2.2.cats,
        c.slug = u.slug ∧ c.parentPk = none := by
  have hfind : (cat_update_or_create db u).2.cats.find? (fun c => c.slug = p) = none := by
    rw [List.find?_eq_none]
    intro x hx
    simpa using hmiss x hx
  rw [cat_step_eq_missing errs slugs db u p hps hpe hfind]
  refine ⟨rfl, ?_⟩
  obtain ⟨y, hy, hypk, _⟩ := cat_uoc_pk_mem db u
  refine ⟨{ (cat_update_or_create db u).1 with parentPk := none }, ?_,
    cat_uoc_slug db u, rfl⟩
  unfold cat_save
  rw [List.mem_map]
  exact ⟨y, hy, by rw [if_pos (by rw [hypk])]⟩

/-- C10. An update item whose parent slug matches no category appends the
missing-parent message (so the call reports success false), yet the category
itself is still created or updated with a null parent, and that row is part of
the state the call commits on return. -/
theorem C10_missing_parent_error_but_write_persists (ctx : Ctx) (db : CatDB)
    (updates : List CategoryUpdate) (j : Nat) (u : CategoryUpdate) (p : String)
    (hperm : ctx.perms.contains Perm.manageProducts = true)
    (hwf : CatWF db)
    (hju : updates.get? j = some u)
    (hps : u.parentSlug = some p) (hpe : p.isEmpty = false)
    (hmiss : ∀ c ∈ (cat_update_or_create
        ((updates.take j).foldl category_step ([], [], db)).2.2 u).2.cats, c.slug ≠ p) :
    ∃ r, category_mutate ctx db updates = .ok r
      ∧ r.success = false
      ∧ parentMissingError p ∈ r.errors
      ∧ (∃ c ∈ (category_step ((updates.take j).foldl category_step ([], [], db)) u).2.2.cats,
          c.slug = u.slug ∧ c.parentPk = none)
      ∧ ∃ c ∈ r.db.cats, c.slug = u.slug := by
  unfold category_mutate
  rw [if_neg (show ¬(ctx.perms.contains Perm.manageProducts = false) by rw [hperm]; simp)]
  have hwfJ := cat_fold_wf (updates.take j)
    ([] : List String) ([] : List String) db hwf
  have hstep := cat_step_missing_write
    ((updates.take j).foldl category_step ([], [], db)).1
    ((updates.take j).foldl category_step ([], [], db)).2.1
    ((updates.take j).foldl category_step ([], [], db)).2.2
    u p hps hpe hmiss
  have hwfStep := cat_step_wf
    ((updates.take j).foldl category_step ([], [], db)).1
    ((updates.take j).foldl category_step ([], [], db)).2.1
    ((updates.take j).foldl category_step ([], [], db)).2.2 u hwfJ
  have hpres : ∃ c ∈ (category_step ((updates.take j).foldl category_step ([], [], db)) u).2.2.cats,
      c.slug = u.slug := by
    obtain ⟨c, hc, h1, _⟩ := hstep.2
    exact ⟨c, hc, h1⟩
  have hmem : parentMissingError p ∈ (category_step
      ((updates.take j).foldl category_step ([], [], db)) u).1 := by
    rw [hstep.1]
    exact List.mem_append_right _ (by simp)
  have hfold := cat_fold_preserves (updates.drop (j + 1))
    (category_step ((updates.take j).foldl category_step ([], [], db)) u).1
    (category_step ((updates.take j).foldl category_step ([], [], db)) u).2.1
    (category_step ((updates.take j).foldl category_step ([], [], db)) u).2.2
    u.slug (parentMissingError p) hwfStep hpres hmem
  have hsplit := foldl_split category_step updates j u hju ([], [], db)
  refine ⟨_, rfl, ?_, ?_, hstep.2, ?_⟩
  · show (updates.foldl category_step ([], [], db)).1.isEmpty = false
    rw [hsplit]
    have hne := List.ne_nil_of_mem hfold.2.2
    cases hie : ((updates.drop (j + 1)).foldl category_step
        (category_step ((updates.take j).foldl category_step ([], [], db)) u)).1.isEmpty
    · rfl
    · exact absurd (List.isEmpty_iff.mp hie) hne
  · show parentMissingError p ∈ (updates.foldl category_step ([], [], db)).1
    rw [hsplit]
    exact hfold.2.2
  · show ∃ c ∈ (updates.foldl category_step ([], [], db)).2.2.cats, c.slug = u.slug
    rw [hsplit]
    exact hfold.2.1

/-- C10 witness: a single update whose parent slug matches nothing. -/
theorem C10_witness :
    ∃ r, category_mutate catCtx catDb0 [upd1] = .ok r
      ∧ r.success = false
      ∧ parentMissingError "ghost" ∈ r.errors
      ∧ (∃ c ∈ (category_step (([upd1].take 0).foldl category_step ([], [], catDb0))
            upd1).2.2.cats, c.slug = upd1.slug ∧ c.parentPk = none)
      ∧ ∃ c ∈ r.db.cats, c.slug = upd1.slug :=
  C10_missing_parent_error_but_write_persists catCtx catDb0 [upd1] 0 upd1 "ghost"
    (by decide) ⟨by decide, by decide, by intro c hc; cases hc⟩ rfl rfl (by decide)
    (by decide)

end Saleor
